import Mathlib

/-!
# pokedexcli: the command callbacks of `internal/commands.go`

A shallow embedding of the command callbacks and of the package globals of
`internal/globals.go`.  Go's package-level variables `nextUrl`, `previousUrl`
and `pokedex` become the fields of `Globals`, threaded through every callback.
Everything a callback does that is visible from outside (text written to
standard output, calls to collaborators, `log.Fatal`) is recorded, in program
order, in a trace of `Event`s.  A callback either returns its `error` value
together with the new globals, or ends the process (`os.Exit`, `log.Fatal`).

The collaborators `FetchData`, `json.Unmarshal`, `catchAttempt` and
`printLocationAreas` are not part of `commands.go`; they are the fields of an
environment `Env`, over an arbitrary type `W` of hidden state (the cache, the
network, the random source).
-/

namespace Pokedexcli

/-! ## Data model -/

/-- The raw payload `*[]byte` handed back by `FetchData`. -/
abbrev Bytes := List Nat

/-- A JSON object of which only the `name` member is read (`Stat`, `Type`,
`Pokemon` inside an encounter). -/
structure NamedResource where
  Name : String
  deriving DecidableEq, Repr

/-- Modelled from the spec: the declaration of the element type of
`Pokemon.Stats` is not among the sources; the fields are the ones
`commandInspect` reads, `Stats[i].BaseStat` and `Stats[i].Stat.Name`. -/
structure PokemonStat where
  BaseStat : Int
  Stat : NamedResource
  deriving DecidableEq, Repr

/-- Modelled from the spec: the declaration of the element type of
`Pokemon.Types` is not among the sources; `commandInspect` reads
`Types[i].Type.Name`. -/
structure PokemonType where
  Type_ : NamedResource
  deriving DecidableEq, Repr

/-- Modelled from the spec: the declaration of the record type `Pokemon` is not
among the sources; the fields are the ones `commands.go` reads (`Name`,
`Height`, `Weight`, `Stats`, `Types`). -/
structure Pokemon where
  Name : String
  Height : Int
  Weight : Int
  Stats : List PokemonStat
  Types : List PokemonType
  deriving DecidableEq, Repr

/-- Modelled from the spec: the declaration of the element type of
`LocationArea.PokemonEncounters` is not among the sources; `commandExplore`
reads `PokemonEncounters[i].Pokemon.Name`. -/
structure PokemonEncounter where
  Pokemon : NamedResource
  deriving DecidableEq, Repr

/-- Modelled from the spec: the declaration of the record type `LocationArea`
is not among the sources; the fields are the ones `commandExplore` reads. -/
structure LocationArea where
  Name : String
  PokemonEncounters : List PokemonEncounter
  deriving DecidableEq, Repr

/-- The Go map `map[string]Pokemon`, as the list of its entries.  Go leaves the
iteration order of a map unspecified; here `range` visits the entries in list
order, and statements about what a loop prints are made up to that order. -/
abbrev PokedexMap := List (String × Pokemon)

/-- The keys of the map. -/
def PokedexMap.keys (m : PokedexMap) : List String :=
  m.map Prod.fst

/-- The map index expression `v, ok := m[k]`: `some v` when `ok`. -/
def PokedexMap.get (k : String) : PokedexMap → Option Pokemon
  | [] => none
  | (k', v') :: rest => if k' = k then some v' else PokedexMap.get k rest

/-- The map assignment `m[k] = v`: replaces the entry of `k`, or adds one. -/
def PokedexMap.set (k : String) (v : Pokemon) : PokedexMap → PokedexMap
  | [] => [(k, v)]
  | (k', v') :: rest =>
    if k' = k then (k, v) :: rest else (k', v') :: PokedexMap.set k v rest

/-- The zero value of `Pokemon`, which indexing a Go map yields for a missing
key. -/
def Pokemon.zero : Pokemon :=
  { Name := "", Height := 0, Weight := 0, Stats := [], Types := [] }

/-- The map index expression `m[k]` used as a value. -/
def PokedexMap.index (m : PokedexMap) (k : String) : Pokemon :=
  (PokedexMap.get k m).getD Pokemon.zero

/-- The package-level variables of `globals.go` that the callbacks use. -/
structure Globals where
  nextUrl : String
  previousUrl : String
  pokedex : PokedexMap
  deriving DecidableEq, Repr

/-- The values `globals.go` gives the variables at program start. -/
def initialGlobals : Globals :=
  { nextUrl := "https://pokeapi.co/api/v2/location-area?limit=20"
    previousUrl := ""
    pokedex := [] }

/-! ## Effects -/

/-- What a callback does, as seen from outside. -/
inductive Event where
  /-- Text written to standard output by `fmt.Println` / `fmt.Printf`. -/
  | print (text : String)
  /-- A call `FetchData(url)`. -/
  | callFetchData (url : String)
  /-- A call `catchAttempt(pokemon)`. -/
  | callCatchAttempt (pokemon : Pokemon)
  /-- A call `printLocationAreas(url)`. -/
  | callPrintLocationAreas (url : String)
  /-- A call `log.Fatal(err)`: the message is logged, the process ends. -/
  | logFatal (msg : String)
  deriving DecidableEq, Repr

/-- How a callback ends: it returns its `error` (`none` is `nil`) with the
globals and the hidden state as it leaves them, or the process has ended with
an exit status. -/
inductive Outcome (W : Type) where
  | returned (err : Option String) (g : Globals) (w : W)
  | exited (code : Int)
  deriving DecidableEq, Repr

/-- One execution of a callback. -/
structure Run (W : Type) where
  trace : List Event
  outcome : Outcome W
  deriving DecidableEq, Repr

/-- How a call of `printLocationAreas` ends: it returns, leaving the two page
locators and the hidden state, or the process has ended inside it. -/
inductive ListingResult (W : Type) where
  | done (nextUrl previousUrl : String) (w : W)
  | terminated (code : Int)
  deriving DecidableEq, Repr

/-- Modelled from the spec: the functions `FetchData`, `catchAttempt` and
`printLocationAreas` and the decoding of the two record shapes are not among
the sources, so the callbacks take them as parameters.  `FetchData` returns the
payload or an error and may change the hidden state (the cache).
`json.Unmarshal` into a fresh variable depends on the payload only.
`catchAttempt` draws from the hidden random source.  `printLocationAreas`
reads and updates the two page locators (the spec's pagination cursor, mutated
by a listing fetch) and has no access to the pokedex. -/
structure Env (W : Type) where
  FetchData : String → W → Except String Bytes × W
  unmarshalLocationArea : Bytes → Except String LocationArea
  unmarshalPokemon : Bytes → Except String Pokemon
  catchAttempt : Pokemon → W → Bool × W
  printLocationAreas : String → String → String → W → ListingResult W

/-! ## The callbacks -/

variable {W : Type}

/-- The names and descriptions of the table of `GetCommands`, in source order;
`commandHelp` prints one line for each. -/
def commandDescriptions : List (String × String) :=
  [ ("help", "Displays this message"),
    ("map", "Lists the 20 areas forward available to 'explore'"),
    ("mapb", "Lists the 20 areas backward available to 'explore'"),
    ("explore", "Lists all of the Pokemon of a given area"),
    ("catch", "Tries to catch a Pokemon!"),
    ("inspect", "Inspects a given pokemon if present in the pokedex"),
    ("pokedex", "Prints out the Pokemons you have caught so far"),
    ("exit", "Exit the Pokedex") ]

/-- The callback `commandHelp`. -/
def commandHelp (_env : Env W) (_arg : String) (g : Globals) (w : W) : Run W :=
  { trace :=
      [Event.print "\nWelcome to the Pokedex!\nUsage:\n", Event.print "\n"]
        ++ commandDescriptions.map
            (fun v => Event.print (v.1 ++ ": " ++ v.2 ++ "\n"))
        ++ [Event.print "\n"]
    outcome := Outcome.returned none g w }

/-- The callback `commandExit`: `os.Exit(0)`. -/
def commandExit (_env : Env W) (_arg : String) (_g : Globals) (_w : W) : Run W :=
  { trace := [], outcome := Outcome.exited 0 }

/-- The statement `printLocationAreas(url)` as the two paging callbacks use it:
the call is recorded, the page locators become what the callee left. -/
def callPrintLocationAreas (env : Env W) (url : String) (g : Globals) (w : W) :
    Run W :=
  match env.printLocationAreas url g.nextUrl g.previousUrl w with
  | ListingResult.done n p w' =>
    { trace := [Event.callPrintLocationAreas url]
      outcome := Outcome.returned none { g with nextUrl := n, previousUrl := p } w' }
  | ListingResult.terminated code =>
    { trace := [Event.callPrintLocationAreas url]
      outcome := Outcome.exited code }

/-- The callback `commandMapForward`. -/
def commandMapForward (env : Env W) (_arg : String) (g : Globals) (w : W) : Run W :=
  if g.nextUrl = "" then
    { trace := [Event.print "Error: cannot map futher\n"]
      outcome := Outcome.returned none g w }
  else
    callPrintLocationAreas env g.nextUrl g w

/-- The callback `commandMapBack`. -/
def commandMapBack (env : Env W) (_arg : String) (g : Globals) (w : W) : Run W :=
  if g.previousUrl = "" then
    { trace := [Event.print "Error: cannot map back\n"]
      outcome := Outcome.returned none g w }
  else
    callPrintLocationAreas env g.previousUrl g w

/-- The locator `fmt.Sprintf("https://pokeapi.co/api/v2/location-area/%v", name)`
of `commandExplore`. -/
def exploreUrl (name : String) : String :=
  "https://pokeapi.co/api/v2/location-area/" ++ name

/-- The locator `fmt.Sprintf("https://pokeapi.co/api/v2/pokemon/%v", name)` of
`commandCatch`. -/
def catchUrl (name : String) : String :=
  "https://pokeapi.co/api/v2/pokemon/" ++ name

/-- The callback `commandExplore`. -/
def commandExplore (env : Env W) (name : String) (g : Globals) (w : W) : Run W :=
  if name = "" then
    { trace := [Event.print "Please provide the name of the area to explore.\n"]
      outcome := Outcome.returned none g w }
  else
    let url := exploreUrl name
    match env.FetchData url w with
    | (Except.error _, w') =>
      { trace := [Event.callFetchData url], outcome := Outcome.returned none g w' }
    | (Except.ok data, w') =>
      match env.unmarshalLocationArea data with
      | Except.error e =>
        { trace := [Event.callFetchData url, Event.logFatal e]
          outcome := Outcome.exited 1 }
      | Except.ok locationarea =>
        { trace :=
            [Event.callFetchData url,
             Event.print ("Exploring " ++ locationarea.Name ++ "...\n"),
             Event.print "Found Pokemon:\n"]
              ++ locationarea.PokemonEncounters.map
                  (fun pokemonEncounter =>
                    Event.print (" - " ++ pokemonEncounter.Pokemon.Name ++ "\n"))
          outcome := Outcome.returned none g w' }

/-- The callback `commandCatch`. -/
def commandCatch (env : Env W) (name : String) (g : Globals) (w : W) : Run W :=
  if name = "" then
    { trace := [Event.print "Please provide the name of the Pokemon to try to catch.\n"]
      outcome := Outcome.returned none g w }
  else
    match PokedexMap.get name g.pokedex with
    | some _ =>
      { trace := [Event.print (name ++ " is already on the Pokedex!\n")]
        outcome := Outcome.returned none g w }
    | none =>
      let url := catchUrl name
      match env.FetchData url w with
      | (Except.error _, w') =>
        { trace := [Event.callFetchData url], outcome := Outcome.returned none g w' }
      | (Except.ok data, w') =>
        match env.unmarshalPokemon data with
        | Except.error e =>
          { trace := [Event.callFetchData url, Event.logFatal e]
            outcome := Outcome.exited 1 }
        | Except.ok pokemon =>
          match env.catchAttempt pokemon w' with
          | (true, w'') =>
            { trace :=
                [Event.callFetchData url,
                 Event.print ("Throwing a Pokeball at " ++ pokemon.Name ++ "...\n"),
                 Event.callCatchAttempt pokemon,
                 Event.print (pokemon.Name ++ " was caught!\n"),
                 Event.print "You may now inspect it with the 'inspect' command.\n"]
              outcome :=
                Outcome.returned none
                  { g with pokedex := PokedexMap.set pokemon.Name pokemon g.pokedex } w'' }
          | (false, w'') =>
            { trace :=
                [Event.callFetchData url,
                 Event.print ("Throwing a Pokeball at " ++ pokemon.Name ++ "...\n"),
                 Event.callCatchAttempt pokemon,
                 Event.print (pokemon.Name ++ " escaped!\n")]
              outcome := Outcome.returned none g w'' }

/-- The text `commandInspect` prints for a record found in the pokedex, one
element per `fmt` call. -/
def inspectOutput (pokemon : Pokemon) : List String :=
  [ "Name: " ++ pokemon.Name ++ "\n",
    "Height: " ++ toString pokemon.Height ++ "\n",
    "Weight: " ++ toString pokemon.Weight ++ "\n",
    "Stats:\n" ]
    ++ pokemon.Stats.map
        (fun s => "  - " ++ toString s.BaseStat ++ ": " ++ s.Stat.Name ++ "\n")
    ++ [ "Types:\n" ]
    ++ pokemon.Types.map (fun t => "  - " ++ t.Type_.Name ++ "\n")

/-- The callback `commandInspect`. -/
def commandInspect (_env : Env W) (name : String) (g : Globals) (w : W) : Run W :=
  if name = "" then
    { trace := [Event.print "Please provide the name of the Pokemon to inspect.\n"]
      outcome := Outcome.returned none g w }
  else
    match PokedexMap.get name g.pokedex with
    | none =>
      { trace := [Event.print (name ++ " was not caught yet!\n")]
        outcome := Outcome.returned none g w }
    | some pokemon =>
      { trace := (inspectOutput pokemon).map Event.print
        outcome := Outcome.returned none g w }

/-- The callback `commandPokedex`. -/
def commandPokedex (_env : Env W) (_arg : String) (g : Globals) (w : W) : Run W :=
  if g.pokedex.length < 1 then
    { trace := [Event.print "You haven't caught any Pokemon yet!\n"]
      outcome := Outcome.returned none g w }
  else
    { trace :=
        (PokedexMap.keys g.pokedex).map
          (fun i => Event.print ("  - " ++ (PokedexMap.index g.pokedex i).Name ++ "\n"))
      outcome := Outcome.returned none g w }

/-- The Go type `cliCommand`. -/
structure cliCommand (W : Type) where
  name : String
  description : String
  Callback : Env W → String → Globals → W → Run W

/-- The table `GetCommands()`: the key of each entry and the entry. -/
def GetCommands (W : Type) : List (String × cliCommand W) :=
  [ ("help", { name := "help", description := "Displays this message",
               Callback := commandHelp }),
    ("map", { name := "map",
              description := "Lists the 20 areas forward available to 'explore'",
              Callback := commandMapForward }),
    ("mapb", { name := "mapb",
               description := "Lists the 20 areas backward available to 'explore'",
               Callback := commandMapBack }),
    ("explore", { name := "explore",
                  description := "Lists all of the Pokemon of a given area",
                  Callback := commandExplore }),
    ("catch", { name := "catch", description := "Tries to catch a Pokemon!",
                Callback := commandCatch }),
    ("inspect", { name := "inspect",
                  description := "Inspects a given pokemon if present in the pokedex",
                  Callback := commandInspect }),
    ("pokedex", { name := "pokedex",
                  description := "Prints out the Pokemons you have caught so far",
                  Callback := commandPokedex }),
    ("exit", { name := "exit", description := "Exit the Pokedex",
               Callback := commandExit }) ]

/-- Modelled from the spec: the loop that reads a line and calls the Callback
of the command is not among the sources.  One command is processed to
completion before the next is read; the loop goes on with the globals the
callback left, and stops when a callback has ended the process. -/
def runCommands (env : Env W) :
    List (cliCommand W × String) → Globals → W → Run W
  | [], g, w => { trace := [], outcome := Outcome.returned none g w }
  | (c, arg) :: rest, g, w =>
    match (c.Callback env arg g w).outcome with
    | Outcome.returned _ g' w' =>
      { trace := (c.Callback env arg g w).trace ++ (runCommands env rest g' w').trace
        outcome := (runCommands env rest g' w').outcome }
    | Outcome.exited code =>
      { trace := (c.Callback env arg g w).trace, outcome := Outcome.exited code }

/-- The key invariant of the pokedex: every entry sits under the key equal to
the Name of its record, and no key occurs twice. -/
def keyInvariant (m : PokedexMap) : Prop :=
  (∀ e ∈ m, e.2.Name = e.1) ∧ (PokedexMap.keys m).Nodup

instance (m : PokedexMap) : Decidable (keyInvariant m) := by
  unfold keyInvariant
  infer_instance

/-! ## Reading a trace -/

/-- The text the callback itself wrote to standard output, in order. -/
def printed : List Event → List String
  | [] => []
  | Event.print text :: rest => text :: printed rest
  | _ :: rest => printed rest

/-- The arguments of the calls of `printLocationAreas`, in order. -/
def listingCalls : List Event → List String
  | [] => []
  | Event.callPrintLocationAreas url :: rest => url :: listingCalls rest
  | _ :: rest => listingCalls rest

/-- The arguments of the calls of `FetchData`, in order. -/
def fetchCalls : List Event → List String
  | [] => []
  | Event.callFetchData url :: rest => url :: fetchCalls rest
  | _ :: rest => fetchCalls rest

/-- The arguments of the calls of `catchAttempt`, in order. -/
def catchCalls : List Event → List Pokemon
  | [] => []
  | Event.callCatchAttempt pokemon :: rest => pokemon :: catchCalls rest
  | _ :: rest => catchCalls rest

/-- The `error` a run returned to its caller, when it returned. -/
def Outcome.returnedError : Outcome W → Option (Option String)
  | Outcome.returned err _ _ => some err
  | Outcome.exited _ => none

/-! ## Worked environments -/

/-- An environment whose network is down: `FetchData` fails for every locator,
and the listing call, whose fetch fails, leaves the page locators as they are
(the cursor is mutated only by a successful listing fetch). -/
def offlineEnv : Env Unit :=
  { FetchData := fun _ w => (Except.error "connection refused", w)
    unmarshalLocationArea := fun _ => Except.error "unexpected end of JSON input"
    unmarshalPokemon := fun _ => Except.error "unexpected end of JSON input"
    catchAttempt := fun _ w => (false, w)
    printLocationAreas := fun _ n p w => ListingResult.done n p w }

/-- The globals after the first listing page was shown and the service named
no further page in either direction. -/
def exhaustedGlobals : Globals :=
  { nextUrl := "", previousUrl := "", pokedex := [] }

/-- The globals on the second listing page. -/
def secondPageGlobals : Globals :=
  { nextUrl := "https://pokeapi.co/api/v2/location-area?offset=40&limit=20"
    previousUrl := "https://pokeapi.co/api/v2/location-area?offset=0&limit=20"
    pokedex := [] }

/-- The record the payload of `pikachu` decodes to. -/
def pikachu : Pokemon :=
  { Name := "pikachu", Height := 4, Weight := 60
    Stats := [{ BaseStat := 35, Stat := { Name := "hp" } }]
    Types := [{ Type_ := { Name := "electric" } }] }

/-- The record the JSON object without members decodes to: every field has its
zero value, the name is the empty string. -/
def unnamedRecord : Pokemon := Pokemon.zero

/-- A payload that stands for the record of `pikachu`. -/
def payloadPikachu : Bytes := [123, 112, 105, 107, 97, 125]

/-- The bytes of the JSON object without members, an opening and a closing
brace. -/
def payloadEmptyObject : Bytes := [123, 125]

/-- A truncated payload, an opening brace alone: not valid JSON. -/
def payloadTruncated : Bytes := [123]

/-- A scripted service without hidden state.  The record of `pikachu` is served
under its name and under its number 25; the locator of pokemon `0` serves the
empty JSON object; the locators of pokemon `ditto` and of the area
`canalave-city-area` serve a truncated payload; every other locator is not
found.  Every throw has the outcome `lucky`.  The listing call leaves the page
locators as they are. -/
def scriptedEnv (lucky : Bool) : Env Unit :=
  { FetchData := fun url w =>
      if url = catchUrl "pikachu" ∨ url = catchUrl "25" then
        (Except.ok payloadPikachu, w)
      else if url = catchUrl "0" then (Except.ok payloadEmptyObject, w)
      else if url = catchUrl "ditto" ∨ url = exploreUrl "canalave-city-area" then
        (Except.ok payloadTruncated, w)
      else (Except.error "404 Not Found", w)
    unmarshalLocationArea := fun data =>
      if data = payloadEmptyObject then
        Except.ok { Name := "", PokemonEncounters := [] }
      else Except.error "unexpected end of JSON input"
    unmarshalPokemon := fun data =>
      if data = payloadPikachu then Except.ok pikachu
      else if data = payloadEmptyObject then Except.ok unnamedRecord
      else Except.error "unexpected end of JSON input"
    catchAttempt := fun _ w => (lucky, w)
    printLocationAreas := fun _ n p w => ListingResult.done n p w }

/-- The globals once `pikachu` has been caught. -/
def pikachuCaught : Globals :=
  { initialGlobals with pokedex := [("pikachu", pikachu)] }

/-- The globals once the record without a name has been caught: it sits under
the empty key. -/
def unnamedCaught : Globals :=
  { initialGlobals with pokedex := [("", unnamedRecord)] }

/-- The entry `catch` of the table of `GetCommands`. -/
def catchCommand : cliCommand Unit :=
  { name := "catch", description := "Tries to catch a Pokemon!",
    Callback := commandCatch }

/-- The entry `map` of the table of `GetCommands`. -/
def mapCommand : cliCommand Unit :=
  { name := "map",
    description := "Lists the 20 areas forward available to 'explore'",
    Callback := commandMapForward }

/-! ## Lemmas on traces, maps and locators -/

theorem commandDescriptions_eq_table (W : Type) :
    (GetCommands W).map (fun e => (e.2.name, e.2.description)) = commandDescriptions ∧
      (GetCommands W).map (fun e => e.2.name) = (GetCommands W).map Prod.fst := by
  exact ⟨rfl, rfl⟩

theorem fetchCalls_map_print {α : Type} (f : α → String) (l : List α) :
    fetchCalls (l.map (fun x => Event.print (f x))) = [] := by
  induction l with
  | nil => rfl
  | cons a l ih => simpa [fetchCalls] using ih

theorem PokedexMap.get_of_set_eq_self (k : String) (v : Pokemon) (m : PokedexMap)
    (h : PokedexMap.set k v m = m) : PokedexMap.get k m = some v := by
  induction m with
  | nil => simp [PokedexMap.set] at h
  | cons e rest ih =>
    obtain ⟨k', v'⟩ := e
    by_cases hk : k' = k
    · simp [PokedexMap.set, hk] at h
      simp [PokedexMap.get, hk, h]
    · simp [PokedexMap.set, hk] at h
      simp [PokedexMap.get, hk, ih h]

theorem PokedexMap.get_set_self (k : String) (v : Pokemon) (m : PokedexMap) :
    PokedexMap.get k (PokedexMap.set k v m) = some v := by
  induction m with
  | nil => simp [PokedexMap.set, PokedexMap.get]
  | cons e rest ih =>
    obtain ⟨k', v'⟩ := e
    by_cases hk : k' = k
    · simp [PokedexMap.set, PokedexMap.get, hk]
    · simp [PokedexMap.set, PokedexMap.get, hk, ih]

theorem string_append_left_cancel (s a b : String) (h : s ++ a = s ++ b) : a = b := by
  have h1 := congrArg String.data h
  simp only [String.data_append] at h1
  exact String.ext (List.append_cancel_left h1)

theorem exploreUrl_ne_catchUrl (a b : String) : exploreUrl a ≠ catchUrl b := by
  intro h
  have h1 := congrArg String.data h
  simp only [exploreUrl, catchUrl, String.data_append] at h1
  have h2 := congrArg (fun l => l.get? 26) h1
  simp at h2

theorem commandCatch_fetch_error (env : Env W) (name : String) (g : Globals) (w : W)
    (hn : name ≠ "") (hk : PokedexMap.get name g.pokedex = none) (e : String) (w1 : W)
    (hf : env.FetchData (catchUrl name) w = (Except.error e, w1)) :
    commandCatch env name g w =
      { trace := [Event.callFetchData (catchUrl name)]
        outcome := Outcome.returned none g w1 } := by
  simp [commandCatch, hn, hk, hf]

theorem commandCatch_decode_error (env : Env W) (name : String) (g : Globals) (w : W)
    (hn : name ≠ "") (hk : PokedexMap.get name g.pokedex = none) (data : Bytes) (w1 : W)
    (hf : env.FetchData (catchUrl name) w = (Except.ok data, w1)) (e : String)
    (hd : env.unmarshalPokemon data = Except.error e) :
    commandCatch env name g w =
      { trace := [Event.callFetchData (catchUrl name), Event.logFatal e]
        outcome := Outcome.exited 1 } := by
  simp [commandCatch, hn, hk, hf, hd]

theorem commandCatch_caught (env : Env W) (name : String) (g : Globals) (w : W)
    (hn : name ≠ "") (hk : PokedexMap.get name g.pokedex = none) (data : Bytes) (w1 : W)
    (hf : env.FetchData (catchUrl name) w = (Except.ok data, w1)) (pokemon : Pokemon)
    (hd : env.unmarshalPokemon data = Except.ok pokemon) (w2 : W)
    (hc : env.catchAttempt pokemon w1 = (true, w2)) :
    commandCatch env name g w =
      { trace :=
          [Event.callFetchData (catchUrl name),
           Event.print ("Throwing a Pokeball at " ++ pokemon.Name ++ "...\n"),
           Event.callCatchAttempt pokemon,
           Event.print (pokemon.Name ++ " was caught!\n"),
           Event.print "You may now inspect it with the 'inspect' command.\n"]
        outcome :=
          Outcome.returned none
            { g with pokedex := PokedexMap.set pokemon.Name pokemon g.pokedex } w2 } := by
  simp [commandCatch, hn, hk, hf, hd, hc]

theorem commandCatch_escaped (env : Env W) (name : String) (g : Globals) (w : W)
    (hn : name ≠ "") (hk : PokedexMap.get name g.pokedex = none) (data : Bytes) (w1 : W)
    (hf : env.FetchData (catchUrl name) w = (Except.ok data, w1)) (pokemon : Pokemon)
    (hd : env.unmarshalPokemon data = Except.ok pokemon) (w2 : W)
    (hc : env.catchAttempt pokemon w1 = (false, w2)) :
    commandCatch env name g w =
      { trace :=
          [Event.callFetchData (catchUrl name),
           Event.print ("Throwing a Pokeball at " ++ pokemon.Name ++ "...\n"),
           Event.callCatchAttempt pokemon,
           Event.print (pokemon.Name ++ " escaped!\n")]
        outcome := Outcome.returned none g w2 } := by
  simp [commandCatch, hn, hk, hf, hd, hc]

theorem printed_map_print (l : List String) : printed (l.map Event.print) = l := by
  induction l with
  | nil => rfl
  | cons a l ih => simp [printed, ih]

theorem printed_map_print_fun {α : Type} (f : α → String) (l : List α) :
    printed (l.map (fun x => Event.print (f x))) = l.map f := by
  induction l with
  | nil => rfl
  | cons a l ih => simp [printed, ih]

theorem fetchCalls_prints (l : List String) : fetchCalls (l.map Event.print) = [] :=
  fetchCalls_map_print (fun x => x) l

theorem inspectOutput_length (pokemon : Pokemon) :
    (inspectOutput pokemon).length = 5 + pokemon.Stats.length + pokemon.Types.length := by
  simp [inspectOutput]
  omega

theorem PokedexMap.get_isSome_of_mem_keys (k : String) (m : PokedexMap)
    (h : k ∈ PokedexMap.keys m) : ∃ v, PokedexMap.get k m = some v := by
  induction m with
  | nil => simp [PokedexMap.keys] at h
  | cons e rest ih =>
    obtain ⟨k', v'⟩ := e
    by_cases hk : k' = k
    · exact ⟨v', by simp [PokedexMap.get, hk]⟩
    · have h1 : k ∈ PokedexMap.keys rest := by
        simp only [PokedexMap.keys, List.map_cons, List.mem_cons] at h
        rcases h with h | h
        · exact absurd h.symm hk
        · exact h
      obtain ⟨v, hv⟩ := ih h1
      exact ⟨v, by simp [PokedexMap.get, hk, hv]⟩

theorem PokedexMap.mem_of_get (k : String) (v : Pokemon) (m : PokedexMap)
    (h : PokedexMap.get k m = some v) : (k, v) ∈ m := by
  induction m with
  | nil => simp [PokedexMap.get] at h
  | cons e rest ih =>
    obtain ⟨k', v'⟩ := e
    by_cases hk : k' = k
    · simp [PokedexMap.get, hk] at h
      simp [hk, h]
    · simp [PokedexMap.get, hk] at h
      exact List.mem_cons_of_mem _ (ih h)

theorem PokedexMap.mem_keys_of_get (k : String) (v : Pokemon) (m : PokedexMap)
    (h : PokedexMap.get k m = some v) : k ∈ PokedexMap.keys m := by
  have h1 := PokedexMap.mem_of_get k v m h
  exact List.mem_map.mpr ⟨(k, v), h1, rfl⟩

theorem PokedexMap.keys_set (k : String) (v : Pokemon) (m : PokedexMap) :
    PokedexMap.keys (PokedexMap.set k v m) =
      if k ∈ PokedexMap.keys m then PokedexMap.keys m else PokedexMap.keys m ++ [k] := by
  induction m with
  | nil => simp [PokedexMap.set, PokedexMap.keys]
  | cons e rest ih =>
    obtain ⟨k', v'⟩ := e
    by_cases hk : k' = k
    · simp [PokedexMap.set, PokedexMap.keys, hk]
    · have hk2 : ¬ k = k' := fun h => hk h.symm
      simp only [PokedexMap.keys] at ih
      by_cases hm : k ∈ List.map Prod.fst rest
      · simp [PokedexMap.set, PokedexMap.keys, hk, hk2, hm, ih]
      · simp [PokedexMap.set, PokedexMap.keys, hk, hk2, hm, ih]

theorem PokedexMap.mem_keys_set_of_mem (n k : String) (v : Pokemon) (m : PokedexMap)
    (h : n ∈ PokedexMap.keys m) : n ∈ PokedexMap.keys (PokedexMap.set k v m) := by
  rw [PokedexMap.keys_set]
  split
  · exact h
  · exact List.mem_append_left _ h

theorem PokedexMap.mem_set (e : String × Pokemon) (k : String) (v : Pokemon)
    (m : PokedexMap) (h : e ∈ PokedexMap.set k v m) : e ∈ m ∨ e = (k, v) := by
  induction m with
  | nil =>
    simp [PokedexMap.set] at h
    exact Or.inr h
  | cons e' rest ih =>
    obtain ⟨k', v'⟩ := e'
    by_cases hk : k' = k
    · simp [PokedexMap.set, hk] at h
      rcases h with h | h
      · exact Or.inr h
      · exact Or.inl (List.mem_cons_of_mem _ h)
    · simp [PokedexMap.set, hk] at h
      rcases h with h | h
      · exact Or.inl (by simp [h])
      · rcases ih h with h1 | h1
        · exact Or.inl (List.mem_cons_of_mem _ h1)
        · exact Or.inr h1

theorem keyInvariant_set (pokemon : Pokemon) (m : PokedexMap) (h : keyInvariant m) :
    keyInvariant (PokedexMap.set pokemon.Name pokemon m) := by
  refine ⟨?_, ?_⟩
  · intro e he
    rcases PokedexMap.mem_set e _ _ m he with h1 | h1
    · exact h.1 e h1
    · rw [h1]
  · rw [PokedexMap.keys_set]
    split
    · exact h.2
    · rename_i hm
      exact List.Nodup.append h.2 (List.nodup_singleton _) (by simpa using hm)

theorem commandExplore_fetch_error (env : Env W) (name : String) (g : Globals) (w : W)
    (hn : name ≠ "") (e : String) (w1 : W)
    (hf : env.FetchData (exploreUrl name) w = (Except.error e, w1)) :
    commandExplore env name g w =
      { trace := [Event.callFetchData (exploreUrl name)]
        outcome := Outcome.returned none g w1 } := by
  simp [commandExplore, hn, hf]

theorem commandExplore_decode_error (env : Env W) (name : String) (g : Globals) (w : W)
    (hn : name ≠ "") (data : Bytes) (w1 : W)
    (hf : env.FetchData (exploreUrl name) w = (Except.ok data, w1)) (e : String)
    (hd : env.unmarshalLocationArea data = Except.error e) :
    commandExplore env name g w =
      { trace := [Event.callFetchData (exploreUrl name), Event.logFatal e]
        outcome := Outcome.exited 1 } := by
  simp [commandExplore, hn, hf, hd]

theorem commandExplore_decoded (env : Env W) (name : String) (g : Globals) (w : W)
    (hn : name ≠ "") (data : Bytes) (w1 : W)
    (hf : env.FetchData (exploreUrl name) w = (Except.ok data, w1))
    (locationarea : LocationArea)
    (hd : env.unmarshalLocationArea data = Except.ok locationarea) :
    commandExplore env name g w =
      { trace :=
          Event.callFetchData (exploreUrl name) ::
            Event.print ("Exploring " ++ locationarea.Name ++ "...\n") ::
              Event.print "Found Pokemon:\n" ::
                locationarea.PokemonEncounters.map
                  (fun pokemonEncounter =>
                    Event.print (" - " ++ pokemonEncounter.Pokemon.Name ++ "\n"))
        outcome := Outcome.returned none g w1 } := by
  simp [commandExplore, hn, hf, hd]

/-! ## Paging (C1, C2, C3) -/

theorem callPrintLocationAreas_trace (env : Env W) (url : String) (g : Globals) (w : W) :
    (callPrintLocationAreas env url g w).trace = [Event.callPrintLocationAreas url] := by
  unfold callPrintLocationAreas
  cases env.printLocationAreas url g.nextUrl g.previousUrl w <;> rfl

theorem callPrintLocationAreas_returned (env : Env W) (url : String) (g : Globals) (w : W)
    (err : Option String) (g' : Globals) (w' : W)
    (h : (callPrintLocationAreas env url g w).outcome = Outcome.returned err g' w') :
    err = none ∧ g'.pokedex = g.pokedex := by
  unfold callPrintLocationAreas at h
  cases hr : env.printLocationAreas url g.nextUrl g.previousUrl w with
  | done n p w1 =>
    rw [hr] at h
    simp only [Outcome.returned.injEq] at h
    obtain ⟨h1, h2, _⟩ := h
    subst h2
    exact ⟨h1.symm, rfl⟩
  | terminated code =>
    rw [hr] at h
    simp at h

theorem callPrintLocationAreas_done (env : Env W) (url : String) (g : Globals) (w : W)
    (n p : String) (w1 : W)
    (h : env.printLocationAreas url g.nextUrl g.previousUrl w = ListingResult.done n p w1) :
    callPrintLocationAreas env url g w =
      { trace := [Event.callPrintLocationAreas url]
        outcome := Outcome.returned none { g with nextUrl := n, previousUrl := p } w1 } := by
  unfold callPrintLocationAreas
  rw [h]

theorem callPrintLocationAreas_terminated (env : Env W) (url : String) (g : Globals)
    (w : W) (code : Int)
    (h : env.printLocationAreas url g.nextUrl g.previousUrl w =
      ListingResult.terminated code) :
    callPrintLocationAreas env url g w =
      { trace := [Event.callPrintLocationAreas url], outcome := Outcome.exited code } := by
  unfold callPrintLocationAreas
  rw [h]

/-- C1: when the stored locator of the requested direction is the empty
string, the paging callback prints its boundary message and nothing else, makes
no call of printLocationAreas, leaves the globals (nextUrl, previousUrl,
pokedex) and the hidden state as they were, and returns nil; this for
commandMapBack with previousUrl and for commandMapForward with nextUrl, for
every argument string. -/
theorem map_boundary_outcome (env : Env W) (arg : String) (g : Globals) (w : W) :
    (g.previousUrl = "" →
      commandMapBack env arg g w =
          { trace := [Event.print "Error: cannot map back\n"]
            outcome := Outcome.returned none g w } ∧
        listingCalls (commandMapBack env arg g w).trace = []) ∧
    (g.nextUrl = "" →
      commandMapForward env arg g w =
          { trace := [Event.print "Error: cannot map futher\n"]
            outcome := Outcome.returned none g w } ∧
        listingCalls (commandMapForward env arg g w).trace = []) := by
  constructor
  · intro h
    simp [commandMapBack, h, listingCalls]
  · intro h
    simp [commandMapForward, h, listingCalls]

theorem map_boundary_outcome_witness :
    (commandMapBack offlineEnv "x" initialGlobals () =
        { trace := [Event.print "Error: cannot map back\n"]
          outcome := Outcome.returned none initialGlobals () } ∧
      listingCalls (commandMapBack offlineEnv "x" initialGlobals ()).trace = []) ∧
    (commandMapForward offlineEnv "x" exhaustedGlobals () =
        { trace := [Event.print "Error: cannot map futher\n"]
          outcome := Outcome.returned none exhaustedGlobals () } ∧
      listingCalls (commandMapForward offlineEnv "x" exhaustedGlobals ()).trace = []) :=
  ⟨(map_boundary_outcome offlineEnv "x" initialGlobals ()).1 rfl,
   (map_boundary_outcome offlineEnv "x" exhaustedGlobals ()).2 rfl⟩

/-- C2: for a non-empty locator X, commandMapForward with nextUrl = X calls
printLocationAreas exactly once, with X, and prints no boundary message: the
whole trace is that one call, and the callback ends as printLocationAreas
applied to X (and to the globals and hidden state at entry) ends, returning
nil with the page locators that call left, or ending the process with it.
commandMapBack does the same with previousUrl = X. From the initial globals of
globals.go the first commandMapForward applies printLocationAreas to the base
listing locator. -/
theorem map_calls_listing_with_stored_locator (env : Env W) (arg : String)
    (g : Globals) (w : W) (X : String) (hX : X ≠ "") :
    (g.nextUrl = X →
      (commandMapForward env arg g w).trace = [Event.callPrintLocationAreas X] ∧
        listingCalls (commandMapForward env arg g w).trace = [X] ∧
        printed (commandMapForward env arg g w).trace = [] ∧
        (∀ n p w1,
          env.printLocationAreas X g.nextUrl g.previousUrl w = ListingResult.done n p w1 →
          (commandMapForward env arg g w).outcome =
            Outcome.returned none { g with nextUrl := n, previousUrl := p } w1) ∧
        (∀ code,
          env.printLocationAreas X g.nextUrl g.previousUrl w =
            ListingResult.terminated code →
          (commandMapForward env arg g w).outcome = Outcome.exited code)) ∧
    (g.previousUrl = X →
      (commandMapBack env arg g w).trace = [Event.callPrintLocationAreas X] ∧
        listingCalls (commandMapBack env arg g w).trace = [X] ∧
        printed (commandMapBack env arg g w).trace = [] ∧
        (∀ n p w1,
          env.printLocationAreas X g.nextUrl g.previousUrl w = ListingResult.done n p w1 →
          (commandMapBack env arg g w).outcome =
            Outcome.returned none { g with nextUrl := n, previousUrl := p } w1) ∧
        (∀ code,
          env.printLocationAreas X g.nextUrl g.previousUrl w =
            ListingResult.terminated code →
          (commandMapBack env arg g w).outcome = Outcome.exited code)) ∧
    listingCalls (commandMapForward env arg initialGlobals w).trace =
      ["https://pokeapi.co/api/v2/location-area?limit=20"] ∧
    (∀ n p w1,
      env.printLocationAreas "https://pokeapi.co/api/v2/location-area?limit=20"
          "https://pokeapi.co/api/v2/location-area?limit=20" "" w =
        ListingResult.done n p w1 →
      commandMapForward env arg initialGlobals w =
        { trace :=
            [Event.callPrintLocationAreas
              "https://pokeapi.co/api/v2/location-area?limit=20"]
          outcome := Outcome.returned none { nextUrl := n, previousUrl := p, pokedex := [] }
            w1 }) ∧
    (∀ code,
      env.printLocationAreas "https://pokeapi.co/api/v2/location-area?limit=20"
          "https://pokeapi.co/api/v2/location-area?limit=20" "" w =
        ListingResult.terminated code →
      commandMapForward env arg initialGlobals w =
        { trace :=
            [Event.callPrintLocationAreas
              "https://pokeapi.co/api/v2/location-area?limit=20"]
          outcome := Outcome.exited code }) := by
  refine ⟨?_, ?_, ?_, ?_, ?_⟩
  · intro h
    subst h
    refine ⟨?_, ?_, ?_, ?_, ?_⟩
    · simp [commandMapForward, hX, callPrintLocationAreas_trace]
    · simp [commandMapForward, hX, callPrintLocationAreas_trace, listingCalls]
    · simp [commandMapForward, hX, callPrintLocationAreas_trace, printed]
    · intro n p w1 hr
      simp only [commandMapForward, hX, if_false]
      rw [callPrintLocationAreas_done env _ g w n p w1 hr]
    · intro code hr
      simp only [commandMapForward, hX, if_false]
      rw [callPrintLocationAreas_terminated env _ g w code hr]
  · intro h
    subst h
    refine ⟨?_, ?_, ?_, ?_, ?_⟩
    · simp [commandMapBack, hX, callPrintLocationAreas_trace]
    · simp [commandMapBack, hX, callPrintLocationAreas_trace, listingCalls]
    · simp [commandMapBack, hX, callPrintLocationAreas_trace, printed]
    · intro n p w1 hr
      simp only [commandMapBack, hX, if_false]
      rw [callPrintLocationAreas_done env _ g w n p w1 hr]
    · intro code hr
      simp only [commandMapBack, hX, if_false]
      rw [callPrintLocationAreas_terminated env _ g w code hr]
  · have h0 : initialGlobals.nextUrl ≠ "" := by decide
    simp [commandMapForward, h0, callPrintLocationAreas_trace, listingCalls]
    rfl
  · intro n p w1 hr
    have h0 : initialGlobals.nextUrl ≠ "" := by decide
    simp only [commandMapForward, h0, if_false]
    exact callPrintLocationAreas_done env _ initialGlobals w n p w1 hr
  · intro code hr
    have h0 : initialGlobals.nextUrl ≠ "" := by decide
    simp only [commandMapForward, h0, if_false]
    exact callPrintLocationAreas_terminated env _ initialGlobals w code hr

theorem map_calls_listing_with_stored_locator_witness :
    ((commandMapForward offlineEnv "" secondPageGlobals ()).trace =
        [Event.callPrintLocationAreas
          "https://pokeapi.co/api/v2/location-area?offset=40&limit=20"] ∧
      (commandMapForward offlineEnv "" secondPageGlobals ()).outcome =
        Outcome.returned none secondPageGlobals ()) ∧
    ((commandMapBack offlineEnv "" secondPageGlobals ()).trace =
        [Event.callPrintLocationAreas
          "https://pokeapi.co/api/v2/location-area?offset=0&limit=20"] ∧
      (commandMapBack offlineEnv "" secondPageGlobals ()).outcome =
        Outcome.returned none secondPageGlobals ()) ∧
    commandMapForward offlineEnv "" initialGlobals () =
      { trace :=
          [Event.callPrintLocationAreas
            "https://pokeapi.co/api/v2/location-area?limit=20"]
        outcome := Outcome.returned none initialGlobals () } :=
  ⟨⟨((map_calls_listing_with_stored_locator offlineEnv "" secondPageGlobals ()
        "https://pokeapi.co/api/v2/location-area?offset=40&limit=20"
        (by decide)).1 rfl).1,
    ((map_calls_listing_with_stored_locator offlineEnv "" secondPageGlobals ()
        "https://pokeapi.co/api/v2/location-area?offset=40&limit=20"
        (by decide)).1 rfl).2.2.2.1 _ _ () rfl⟩,
   ⟨((map_calls_listing_with_stored_locator offlineEnv "" secondPageGlobals ()
        "https://pokeapi.co/api/v2/location-area?offset=0&limit=20"
        (by decide)).2.1 rfl).1,
    ((map_calls_listing_with_stored_locator offlineEnv "" secondPageGlobals ()
        "https://pokeapi.co/api/v2/location-area?offset=0&limit=20"
        (by decide)).2.1 rfl).2.2.2.1 _ _ () rfl⟩,
   (map_calls_listing_with_stored_locator offlineEnv "" secondPageGlobals ()
      "https://pokeapi.co/api/v2/location-area?offset=40&limit=20"
      (by decide)).2.2.2.1 _ _ () rfl⟩

/-- C3, as stated, fails: with the network down, commandMapForward returns nil
both when nextUrl is empty and when nextUrl is the base listing locator and
the listing fetch fails, and commandMapBack returns nil both when previousUrl
is empty and when it is a locator whose fetch fails; the returned values do
not differ. -/
theorem map_boundary_return_not_distinct :
    exhaustedGlobals.nextUrl = "" ∧ initialGlobals.nextUrl ≠ "" ∧
    (commandMapForward offlineEnv "" exhaustedGlobals ()).outcome.returnedError =
      some none ∧
    (commandMapForward offlineEnv "" initialGlobals ()).outcome.returnedError =
      some none ∧
    exhaustedGlobals.previousUrl = "" ∧ secondPageGlobals.previousUrl ≠ "" ∧
    (commandMapBack offlineEnv "" exhaustedGlobals ()).outcome.returnedError =
      some none ∧
    (commandMapBack offlineEnv "" secondPageGlobals ()).outcome.returnedError =
      some none := by
  refine ⟨rfl, by decide, rfl, rfl, rfl, by decide, rfl, rfl⟩

/-- C3, amended: whenever commandMapForward or commandMapBack returns, it
returns nil, at the boundary and after a listing call alike; the two cases
differ in what the callback does. With an empty locator it prints its boundary
message, makes no listing call and leaves the globals and the hidden state as
they were. With a non-empty locator it prints nothing itself and makes exactly
one listing call, with that locator: its trace is that call and it ends as
printLocationAreas applied to that locator ends, returning nil with the page
locators the call left, or ending the process with it. -/
theorem map_boundary_signalled_by_output (env : Env W) (arg : String)
    (g : Globals) (w : W) :
    (∀ err g' w', (commandMapForward env arg g w).outcome = Outcome.returned err g' w' →
      err = none) ∧
    (∀ err g' w', (commandMapBack env arg g w).outcome = Outcome.returned err g' w' →
      err = none) ∧
    (g.nextUrl = "" →
      printed (commandMapForward env arg g w).trace = ["Error: cannot map futher\n"] ∧
        listingCalls (commandMapForward env arg g w).trace = [] ∧
        (commandMapForward env arg g w).outcome = Outcome.returned none g w) ∧
    (g.nextUrl ≠ "" →
      printed (commandMapForward env arg g w).trace = [] ∧
        listingCalls (commandMapForward env arg g w).trace = [g.nextUrl] ∧
        (∀ n p w1,
          env.printLocationAreas g.nextUrl g.nextUrl g.previousUrl w =
            ListingResult.done n p w1 →
          commandMapForward env arg g w =
            { trace := [Event.callPrintLocationAreas g.nextUrl]
              outcome :=
                Outcome.returned none { g with nextUrl := n, previousUrl := p } w1 }) ∧
        (∀ code,
          env.printLocationAreas g.nextUrl g.nextUrl g.previousUrl w =
            ListingResult.terminated code →
          commandMapForward env arg g w =
            { trace := [Event.callPrintLocationAreas g.nextUrl]
              outcome := Outcome.exited code })) ∧
    (g.previousUrl = "" →
      printed (commandMapBack env arg g w).trace = ["Error: cannot map back\n"] ∧
        listingCalls (commandMapBack env arg g w).trace = [] ∧
        (commandMapBack env arg g w).outcome = Outcome.returned none g w) ∧
    (g.previousUrl ≠ "" →
      printed (commandMapBack env arg g w).trace = [] ∧
        listingCalls (commandMapBack env arg g w).trace = [g.previousUrl] ∧
        (∀ n p w1,
          env.printLocationAreas g.previousUrl g.nextUrl g.previousUrl w =
            ListingResult.done n p w1 →
          commandMapBack env arg g w =
            { trace := [Event.callPrintLocationAreas g.previousUrl]
              outcome :=
                Outcome.returned none { g with nextUrl := n, previousUrl := p } w1 }) ∧
        (∀ code,
          env.printLocationAreas g.previousUrl g.nextUrl g.previousUrl w =
            ListingResult.terminated code →
          commandMapBack env arg g w =
            { trace := [Event.callPrintLocationAreas g.previousUrl]
              outcome := Outcome.exited code })) := by
  refine ⟨?_, ?_, ?_, ?_, ?_, ?_⟩
  · intro err g' w' h
    by_cases hn : g.nextUrl = ""
    · simp [commandMapForward, hn] at h
      exact h.1.symm
    · simp only [commandMapForward, hn, if_false] at h
      exact (callPrintLocationAreas_returned env _ g w err g' w' h).1
  · intro err g' w' h
    by_cases hn : g.previousUrl = ""
    · simp [commandMapBack, hn] at h
      exact h.1.symm
    · simp only [commandMapBack, hn, if_false] at h
      exact (callPrintLocationAreas_returned env _ g w err g' w' h).1
  · intro h
    simp [commandMapForward, h, listingCalls, printed]
  · intro h
    refine ⟨?_, ?_, ?_, ?_⟩
    · simp [commandMapForward, h, callPrintLocationAreas_trace, printed]
    · simp [commandMapForward, h, callPrintLocationAreas_trace, listingCalls]
    · intro n p w1 hr
      simp only [commandMapForward, h, if_false]
      exact callPrintLocationAreas_done env _ g w n p w1 hr
    · intro code hr
      simp only [commandMapForward, h, if_false]
      exact callPrintLocationAreas_terminated env _ g w code hr
  · intro h
    simp [commandMapBack, h, listingCalls, printed]
  · intro h
    refine ⟨?_, ?_, ?_, ?_⟩
    · simp [commandMapBack, h, callPrintLocationAreas_trace, printed]
    · simp [commandMapBack, h, callPrintLocationAreas_trace, listingCalls]
    · intro n p w1 hr
      simp only [commandMapBack, h, if_false]
      exact callPrintLocationAreas_done env _ g w n p w1 hr
    · intro code hr
      simp only [commandMapBack, h, if_false]
      exact callPrintLocationAreas_terminated env _ g w code hr

theorem map_boundary_signalled_by_output_witness :
    (printed (commandMapBack offlineEnv "" initialGlobals ()).trace =
        ["Error: cannot map back\n"] ∧
      listingCalls (commandMapBack offlineEnv "" initialGlobals ()).trace = [] ∧
      (commandMapBack offlineEnv "" initialGlobals ()).outcome =
        Outcome.returned none initialGlobals ()) ∧
    commandMapForward offlineEnv "" initialGlobals () =
      { trace := [Event.callPrintLocationAreas initialGlobals.nextUrl]
        outcome := Outcome.returned none initialGlobals () } ∧
    commandMapBack offlineEnv "" secondPageGlobals () =
      { trace := [Event.callPrintLocationAreas secondPageGlobals.previousUrl]
        outcome := Outcome.returned none secondPageGlobals () } :=
  ⟨(map_boundary_signalled_by_output offlineEnv "" initialGlobals ()).2.2.2.2.1 rfl,
   ((map_boundary_signalled_by_output offlineEnv "" initialGlobals ()).2.2.2.1
      (by decide)).2.2.1 _ _ () rfl,
   ((map_boundary_signalled_by_output offlineEnv "" secondPageGlobals ()).2.2.2.2.2
      (by decide)).2.2.1 _ _ () rfl⟩

/-! ## Catching and exploring (C4, C5, C8) -/

/-- C4, as stated, fails in its only-if half: with pikachu already stored
under its own name, commandCatch of the name 25 (non-empty, not a key) fetches
and decodes the record of pikachu, the throw fails, and the callback returns
with the pokedex unchanged; that pokedex equals the old one with the decoded
record put under the record's Name, although catchAttempt returned false. -/
theorem catch_insert_iff_success_fails :
    "25" ≠ "" ∧ PokedexMap.get "25" pikachuCaught.pokedex = none ∧
    (scriptedEnv false).FetchData (catchUrl "25") () = (Except.ok payloadPikachu, ()) ∧
    (scriptedEnv false).unmarshalPokemon payloadPikachu = Except.ok pikachu ∧
    (commandCatch (scriptedEnv false) "25" pikachuCaught ()).outcome =
      Outcome.returned none pikachuCaught () ∧
    ¬ (pikachuCaught.pokedex =
          PokedexMap.set pikachu.Name pikachu pikachuCaught.pokedex ↔
        ((scriptedEnv false).catchAttempt pikachu ()).1 = true) := by
  refine ⟨by decide, rfl, rfl, rfl, rfl, ?_⟩
  intro h
  have h1 : ((scriptedEnv false).catchAttempt pikachu ()).1 = true := h.1 rfl
  exact Bool.false_ne_true h1

/-- C4, amended: for a non-empty name that is not a key of the pokedex,
commandCatch returns in each of these cases. On a fetch error the pokedex is
unchanged and catchAttempt is not called. When the fetch succeeds, the payload
decodes and catchAttempt returns true, the pokedex is the old pokedex with the
decoded record put under the record's Name. When catchAttempt returns false,
the pokedex is unchanged. The pokedex on return equals the old one with the
record put under its Name if and only if catchAttempt returned true, provided
the old pokedex does not already hold that very record under that Name. -/
theorem catch_updates_pokedex_on_success (env : Env W) (name : String)
    (g : Globals) (w : W) (hn : name ≠ "")
    (hk : PokedexMap.get name g.pokedex = none) :
    (∀ e w1, env.FetchData (catchUrl name) w = (Except.error e, w1) →
      (commandCatch env name g w).outcome = Outcome.returned none g w1 ∧
        catchCalls (commandCatch env name g w).trace = []) ∧
    (∀ data w1 pokemon, env.FetchData (catchUrl name) w = (Except.ok data, w1) →
      env.unmarshalPokemon data = Except.ok pokemon →
      (∀ w2, env.catchAttempt pokemon w1 = (true, w2) →
        (commandCatch env name g w).outcome =
          Outcome.returned none
            { g with pokedex := PokedexMap.set pokemon.Name pokemon g.pokedex } w2) ∧
      (∀ w2, env.catchAttempt pokemon w1 = (false, w2) →
        (commandCatch env name g w).outcome = Outcome.returned none g w2) ∧
      (∃ g', (commandCatch env name g w).outcome =
          Outcome.returned none g' (env.catchAttempt pokemon w1).2 ∧
        (PokedexMap.get pokemon.Name g.pokedex ≠ some pokemon →
          (g'.pokedex = PokedexMap.set pokemon.Name pokemon g.pokedex ↔
            (env.catchAttempt pokemon w1).1 = true)))) := by
  refine ⟨?_, ?_⟩
  · intro e w1 hf
    rw [commandCatch_fetch_error env name g w hn hk e w1 hf]
    exact ⟨rfl, rfl⟩
  · intro data w1 pokemon hf hd
    refine ⟨?_, ?_, ?_⟩
    · intro w2 hc
      rw [commandCatch_caught env name g w hn hk data w1 hf pokemon hd w2 hc]
    · intro w2 hc
      rw [commandCatch_escaped env name g w hn hk data w1 hf pokemon hd w2 hc]
    · cases hc : env.catchAttempt pokemon w1 with
      | mk b w2 =>
        cases b with
        | true =>
          rw [commandCatch_caught env name g w hn hk data w1 hf pokemon hd w2 hc]
          exact ⟨_, rfl, fun _ => ⟨fun _ => rfl, fun _ => rfl⟩⟩
        | false =>
          rw [commandCatch_escaped env name g w hn hk data w1 hf pokemon hd w2 hc]
          refine ⟨_, rfl, fun hne => ⟨fun heq => ?_, fun hb => ?_⟩⟩
          · exact absurd (PokedexMap.get_of_set_eq_self _ _ _ heq.symm) hne
          · exact absurd hb Bool.false_ne_true

theorem catch_updates_pokedex_on_success_witness :
    ((commandCatch (scriptedEnv true) "missingno" initialGlobals ()).outcome =
        Outcome.returned none initialGlobals () ∧
      catchCalls (commandCatch (scriptedEnv true) "missingno" initialGlobals ()).trace
        = []) ∧
    (commandCatch (scriptedEnv true) "pikachu" initialGlobals ()).outcome =
      Outcome.returned none
        { initialGlobals with
          pokedex := PokedexMap.set pikachu.Name pikachu initialGlobals.pokedex } () :=
  ⟨(catch_updates_pokedex_on_success (scriptedEnv true) "missingno" initialGlobals ()
      (by decide) rfl).1 "404 Not Found" () rfl,
   ((catch_updates_pokedex_on_success (scriptedEnv true) "pikachu" initialGlobals ()
      (by decide) rfl).2 payloadPikachu () pikachu rfl rfl).1 () rfl⟩

/-- C5, as stated, fails: the area canalave-city-area and the pokemon ditto are
served a truncated payload that does not decode; commandExplore and
commandCatch then end the process with status 1 through log.Fatal and return
nothing to their caller. -/
theorem decode_failure_ends_process :
    (scriptedEnv true).FetchData (exploreUrl "canalave-city-area") () =
      (Except.ok payloadTruncated, ()) ∧
    (scriptedEnv true).unmarshalLocationArea payloadTruncated =
      Except.error "unexpected end of JSON input" ∧
    (commandExplore (scriptedEnv true) "canalave-city-area" initialGlobals ()).outcome =
      Outcome.exited 1 ∧
    (commandExplore (scriptedEnv true) "canalave-city-area"
      initialGlobals ()).outcome.returnedError = none ∧
    (scriptedEnv true).FetchData (catchUrl "ditto") () =
      (Except.ok payloadTruncated, ()) ∧
    (scriptedEnv true).unmarshalPokemon payloadTruncated =
      Except.error "unexpected end of JSON input" ∧
    (commandCatch (scriptedEnv true) "ditto" initialGlobals ()).outcome =
      Outcome.exited 1 ∧
    (commandCatch (scriptedEnv true) "ditto" initialGlobals ()).outcome.returnedError =
      none := by
  refine ⟨rfl, rfl, rfl, rfl, rfl, rfl, rfl, rfl⟩

/-- C5, amended: when the fetched payload fails to decode as its record shape,
commandExplore (for a non-empty name) and commandCatch (for a non-empty name
not yet in the pokedex) call log.Fatal with the decoding error right after the
fetch; the process ends with status 1 and no error is returned to the
caller. -/
theorem decode_failure_is_fatal (env : Env W) (name : String) (g : Globals) (w : W)
    (hn : name ≠ "") (data : Bytes) (w1 : W) (e : String) :
    (env.FetchData (exploreUrl name) w = (Except.ok data, w1) →
      env.unmarshalLocationArea data = Except.error e →
      commandExplore env name g w =
        { trace := [Event.callFetchData (exploreUrl name), Event.logFatal e]
          outcome := Outcome.exited 1 }) ∧
    (PokedexMap.get name g.pokedex = none →
      env.FetchData (catchUrl name) w = (Except.ok data, w1) →
      env.unmarshalPokemon data = Except.error e →
      commandCatch env name g w =
        { trace := [Event.callFetchData (catchUrl name), Event.logFatal e]
          outcome := Outcome.exited 1 }) := by
  refine ⟨?_, ?_⟩
  · intro hf hd
    exact commandExplore_decode_error env name g w hn data w1 hf e hd
  · intro hk hf hd
    exact commandCatch_decode_error env name g w hn hk data w1 hf e hd

theorem decode_failure_is_fatal_witness :
    commandExplore (scriptedEnv true) "canalave-city-area" initialGlobals () =
        { trace := [Event.callFetchData (exploreUrl "canalave-city-area"),
                    Event.logFatal "unexpected end of JSON input"]
          outcome := Outcome.exited 1 } ∧
    commandCatch (scriptedEnv true) "ditto" initialGlobals () =
        { trace := [Event.callFetchData (catchUrl "ditto"),
                    Event.logFatal "unexpected end of JSON input"]
          outcome := Outcome.exited 1 } :=
  ⟨(decode_failure_is_fatal (scriptedEnv true) "canalave-city-area" initialGlobals ()
      (by decide) payloadTruncated () "unexpected end of JSON input").1 rfl rfl,
   (decode_failure_is_fatal (scriptedEnv true) "ditto" initialGlobals ()
      (by decide) payloadTruncated () "unexpected end of JSON input").2 rfl rfl rfl⟩

/-- C8: for a non-empty name commandExplore calls FetchData exactly once, with
the location-area base locator followed by the name, and commandCatch, for a
name not yet in the pokedex, exactly once with the pokemon base locator
followed by the name: the trace holds that one call, and the whole run is the
one FetchData at that locator (applied to the hidden state at entry)
determines, passing on the hidden state that call left. Within one command
distinct names give distinct locators, no explore locator equals a catch
locator, and for the empty name neither command calls FetchData: it prints its
missing-argument line and leaves globals and hidden state as they were. -/
theorem fetch_locator_of_name (env : Env W) (g : Globals) (w : W) :
    (∀ name, name ≠ "" →
      fetchCalls (commandExplore env name g w).trace =
          ["https://pokeapi.co/api/v2/location-area/" ++ name] ∧
        (∀ e w1,
          env.FetchData ("https://pokeapi.co/api/v2/location-area/" ++ name) w =
            (Except.error e, w1) →
          commandExplore env name g w =
            { trace :=
                [Event.callFetchData ("https://pokeapi.co/api/v2/location-area/" ++ name)]
              outcome := Outcome.returned none g w1 }) ∧
        (∀ data w1,
          env.FetchData ("https://pokeapi.co/api/v2/location-area/" ++ name) w =
            (Except.ok data, w1) →
          (∀ e, env.unmarshalLocationArea data = Except.error e →
            commandExplore env name g w =
              { trace :=
                  [Event.callFetchData
                    ("https://pokeapi.co/api/v2/location-area/" ++ name),
                   Event.logFatal e]
                outcome := Outcome.exited 1 }) ∧
          (∀ locationarea, env.unmarshalLocationArea data = Except.ok locationarea →
            commandExplore env name g w =
              { trace :=
                  Event.callFetchData
                      ("https://pokeapi.co/api/v2/location-area/" ++ name) ::
                    Event.print ("Exploring " ++ locationarea.Name ++ "...\n") ::
                      Event.print "Found Pokemon:\n" ::
                        locationarea.PokemonEncounters.map
                          (fun pokemonEncounter =>
                            Event.print
                              (" - " ++ pokemonEncounter.Pokemon.Name ++ "\n"))
                outcome := Outcome.returned none g w1 }))) ∧
    (∀ name, name ≠ "" → PokedexMap.get name g.pokedex = none →
      fetchCalls (commandCatch env name g w).trace =
          ["https://pokeapi.co/api/v2/pokemon/" ++ name] ∧
        (∀ e w1,
          env.FetchData ("https://pokeapi.co/api/v2/pokemon/" ++ name) w =
            (Except.error e, w1) →
          commandCatch env name g w =
            { trace := [Event.callFetchData ("https://pokeapi.co/api/v2/pokemon/" ++ name)]
              outcome := Outcome.returned none g w1 }) ∧
        (∀ data w1,
          env.FetchData ("https://pokeapi.co/api/v2/pokemon/" ++ name) w =
            (Except.ok data, w1) →
          (∀ e, env.unmarshalPokemon data = Except.error e →
            commandCatch env name g w =
              { trace :=
                  [Event.callFetchData ("https://pokeapi.co/api/v2/pokemon/" ++ name),
                   Event.logFatal e]
                outcome := Outcome.exited 1 }) ∧
          (∀ pokemon, env.unmarshalPokemon data = Except.ok pokemon →
            (∀ w2, env.catchAttempt pokemon w1 = (true, w2) →
              commandCatch env name g w =
                { trace :=
                    [Event.callFetchData ("https://pokeapi.co/api/v2/pokemon/" ++ name),
                     Event.print ("Throwing a Pokeball at " ++ pokemon.Name ++ "...\n"),
                     Event.callCatchAttempt pokemon,
                     Event.print (pokemon.Name ++ " was caught!\n"),
                     Event.print "You may now inspect it with the 'inspect' command.\n"]
                  outcome :=
                    Outcome.returned none
                      { g with
                        pokedex := PokedexMap.set pokemon.Name pokemon g.pokedex } w2 }) ∧
            (∀ w2, env.catchAttempt pokemon w1 = (false, w2) →
              commandCatch env name g w =
                { trace :=
                    [Event.callFetchData ("https://pokeapi.co/api/v2/pokemon/" ++ name),
                     Event.print ("Throwing a Pokeball at " ++ pokemon.Name ++ "...\n"),
                     Event.callCatchAttempt pokemon,
                     Event.print (pokemon.Name ++ " escaped!\n")]
                  outcome := Outcome.returned none g w2 })))) ∧
    (∀ a b, "https://pokeapi.co/api/v2/location-area/" ++ a =
        "https://pokeapi.co/api/v2/location-area/" ++ b → a = b) ∧
    (∀ a b, "https://pokeapi.co/api/v2/pokemon/" ++ a =
        "https://pokeapi.co/api/v2/pokemon/" ++ b → a = b) ∧
    (∀ a b, "https://pokeapi.co/api/v2/location-area/" ++ a ≠
        "https://pokeapi.co/api/v2/pokemon/" ++ b) ∧
    commandExplore env "" g w =
      { trace := [Event.print "Please provide the name of the area to explore.\n"]
        outcome := Outcome.returned none g w } ∧
    commandCatch env "" g w =
      { trace := [Event.print "Please provide the name of the Pokemon to try to catch.\n"]
        outcome := Outcome.returned none g w } ∧
    fetchCalls (commandExplore env "" g w).trace = [] ∧
    fetchCalls (commandCatch env "" g w).trace = [] := by
  refine ⟨?_, ?_, ?_, ?_, exploreUrl_ne_catchUrl, ?_, ?_, ?_, ?_⟩
  · intro name hn
    refine ⟨?_, ?_, ?_⟩
    · rcases hf : env.FetchData (exploreUrl name) w with ⟨r, w1⟩
      cases r with
      | error e =>
        rw [commandExplore_fetch_error env name g w hn e w1 hf]
        rfl
      | ok data =>
        cases hd : env.unmarshalLocationArea data with
        | error e =>
          rw [commandExplore_decode_error env name g w hn data w1 hf e hd]
          rfl
        | ok la =>
          rw [commandExplore_decoded env name g w hn data w1 hf la hd]
          simp [fetchCalls, fetchCalls_map_print, exploreUrl]
    · intro e w1 hf
      exact commandExplore_fetch_error env name g w hn e w1 hf
    · intro data w1 hf
      refine ⟨?_, ?_⟩
      · intro e hd
        exact commandExplore_decode_error env name g w hn data w1 hf e hd
      · intro la hd
        exact commandExplore_decoded env name g w hn data w1 hf la hd
  · intro name hn hk
    refine ⟨?_, ?_, ?_⟩
    · rcases hf : env.FetchData (catchUrl name) w with ⟨r, w1⟩
      cases r with
      | error e =>
        rw [commandCatch_fetch_error env name g w hn hk e w1 hf]
        rfl
      | ok data =>
        cases hd : env.unmarshalPokemon data with
        | error e =>
          rw [commandCatch_decode_error env name g w hn hk data w1 hf e hd]
          rfl
        | ok pokemon =>
          rcases hc : env.catchAttempt pokemon w1 with ⟨b, w2⟩
          cases b with
          | true =>
            rw [commandCatch_caught env name g w hn hk data w1 hf pokemon hd w2 hc]
            rfl
          | false =>
            rw [commandCatch_escaped env name g w hn hk data w1 hf pokemon hd w2 hc]
            rfl
    · intro e w1 hf
      exact commandCatch_fetch_error env name g w hn hk e w1 hf
    · intro data w1 hf
      refine ⟨?_, ?_⟩
      · intro e hd
        exact commandCatch_decode_error env name g w hn hk data w1 hf e hd
      · intro pokemon hd
        refine ⟨?_, ?_⟩
        · intro w2 hc
          exact commandCatch_caught env name g w hn hk data w1 hf pokemon hd w2 hc
        · intro w2 hc
          exact commandCatch_escaped env name g w hn hk data w1 hf pokemon hd w2 hc
  · intro a b h
    exact string_append_left_cancel _ a b h
  · intro a b h
    exact string_append_left_cancel _ a b h
  · simp [commandExplore]
  · simp [commandCatch]
  · simp [commandExplore, fetchCalls]
  · simp [commandCatch, fetchCalls]

theorem fetch_locator_of_name_witness :
    (fetchCalls (commandExplore (scriptedEnv true) "canalave-city-area"
        initialGlobals ()).trace =
      ["https://pokeapi.co/api/v2/location-area/" ++ "canalave-city-area"] ∧
     commandExplore (scriptedEnv true) "canalave-city-area" initialGlobals () =
      { trace :=
          [Event.callFetchData
            ("https://pokeapi.co/api/v2/location-area/" ++ "canalave-city-area"),
           Event.logFatal "unexpected end of JSON input"]
        outcome := Outcome.exited 1 }) ∧
    (fetchCalls (commandCatch (scriptedEnv true) "pikachu" initialGlobals ()).trace =
      ["https://pokeapi.co/api/v2/pokemon/" ++ "pikachu"] ∧
     commandCatch (scriptedEnv true) "missingno" initialGlobals () =
      { trace := [Event.callFetchData ("https://pokeapi.co/api/v2/pokemon/" ++ "missingno")]
        outcome := Outcome.returned none initialGlobals () }) ∧
    "pikachu" = "pikachu" :=
  ⟨⟨((fetch_locator_of_name (scriptedEnv true) initialGlobals ()).1
        "canalave-city-area" (by decide)).1,
    (((fetch_locator_of_name (scriptedEnv true) initialGlobals ()).1
        "canalave-city-area" (by decide)).2.2 payloadTruncated () rfl).1
        "unexpected end of JSON input" rfl⟩,
   ⟨((fetch_locator_of_name (scriptedEnv true) initialGlobals ()).2.1
        "pikachu" (by decide) rfl).1,
    ((fetch_locator_of_name (scriptedEnv true) initialGlobals ()).2.1
        "missingno" (by decide) rfl).2.1 "404 Not Found" () rfl⟩,
   (fetch_locator_of_name (scriptedEnv true) initialGlobals ()).2.2.1
      "pikachu" "pikachu" rfl⟩

/-! ## The pokedex across commands (C6, C7, C9, C10) -/

theorem commandCatch_already_caught (env : Env W) (name : String) (g : Globals) (w : W)
    (hn : name ≠ "") (pokemon : Pokemon)
    (hk : PokedexMap.get name g.pokedex = some pokemon) :
    commandCatch env name g w =
      { trace := [Event.print (name ++ " is already on the Pokedex!\n")]
        outcome := Outcome.returned none g w } := by
  simp [commandCatch, hn, hk]

theorem commandCatch_returned_pokedex (env : Env W) (name : String) (g : Globals) (w : W)
    (err : Option String) (g' : Globals) (w' : W)
    (h : (commandCatch env name g w).outcome = Outcome.returned err g' w') :
    g'.pokedex = g.pokedex ∨
      ∃ pokemon, g'.pokedex = PokedexMap.set pokemon.Name pokemon g.pokedex := by
  by_cases hn : name = ""
  · simp [commandCatch, hn] at h
    exact Or.inl (by rw [← h.2.1])
  · cases hk : PokedexMap.get name g.pokedex with
    | some pokemon =>
      rw [commandCatch_already_caught env name g w hn pokemon hk] at h
      simp at h
      exact Or.inl (by rw [← h.2.1])
    | none =>
      rcases hf : env.FetchData (catchUrl name) w with ⟨r, w1⟩
      cases r with
      | error e =>
        rw [commandCatch_fetch_error env name g w hn hk e w1 hf] at h
        simp at h
        exact Or.inl (by rw [← h.2.1])
      | ok data =>
        cases hd : env.unmarshalPokemon data with
        | error e =>
          rw [commandCatch_decode_error env name g w hn hk data w1 hf e hd] at h
          simp at h
        | ok pokemon =>
          rcases hc : env.catchAttempt pokemon w1 with ⟨b, w2⟩
          cases b with
          | true =>
            rw [commandCatch_caught env name g w hn hk data w1 hf pokemon hd w2 hc] at h
            simp at h
            exact Or.inr ⟨pokemon, by rw [← h.2.1]⟩
          | false =>
            rw [commandCatch_escaped env name g w hn hk data w1 hf pokemon hd w2 hc] at h
            simp at h
            exact Or.inl (by rw [← h.2.1])

theorem commandExplore_returned_pokedex (env : Env W) (name : String) (g : Globals)
    (w : W) (err : Option String) (g' : Globals) (w' : W)
    (h : (commandExplore env name g w).outcome = Outcome.returned err g' w') :
    g'.pokedex = g.pokedex := by
  by_cases hn : name = ""
  · simp [commandExplore, hn] at h
    rw [← h.2.1]
  · rcases hf : env.FetchData (exploreUrl name) w with ⟨r, w1⟩
    cases r with
    | error e =>
      rw [commandExplore_fetch_error env name g w hn e w1 hf] at h
      simp at h
      rw [← h.2.1]
    | ok data =>
      cases hd : env.unmarshalLocationArea data with
      | error e =>
        rw [commandExplore_decode_error env name g w hn data w1 hf e hd] at h
        simp at h
      | ok la =>
        rw [commandExplore_decoded env name g w hn data w1 hf la hd] at h
        simp at h
        rw [← h.2.1]

theorem commandInspect_outcome (env : Env W) (name : String) (g : Globals) (w : W) :
    (commandInspect env name g w).outcome = Outcome.returned none g w := by
  unfold commandInspect
  split
  · rfl
  · split <;> rfl

theorem commandPokedex_outcome (env : Env W) (arg : String) (g : Globals) (w : W) :
    (commandPokedex env arg g w).outcome = Outcome.returned none g w := by
  unfold commandPokedex
  split <;> rfl

theorem callback_returned_pokedex (env : Env W) (c : cliCommand W)
    (hc : c ∈ (GetCommands W).map Prod.snd) (arg : String) (g : Globals) (w : W)
    (err : Option String) (g' : Globals) (w' : W)
    (h : (c.Callback env arg g w).outcome = Outcome.returned err g' w') :
    g'.pokedex = g.pokedex ∨
      ∃ pokemon, g'.pokedex = PokedexMap.set pokemon.Name pokemon g.pokedex := by
  simp only [GetCommands, List.map_cons, List.map_nil, List.mem_cons,
    List.mem_singleton, List.not_mem_nil, or_false] at hc
  rcases hc with rfl | rfl | rfl | rfl | rfl | rfl | rfl | rfl
  · simp [commandHelp] at h
    exact Or.inl (by rw [← h.2.1])
  · left
    by_cases hn : g.nextUrl = ""
    · simp [commandMapForward, hn] at h
      rw [← h.2.1]
    · simp only [commandMapForward, hn, if_false] at h
      exact (callPrintLocationAreas_returned env _ g w err g' w' h).2
  · left
    by_cases hn : g.previousUrl = ""
    · simp [commandMapBack, hn] at h
      rw [← h.2.1]
    · simp only [commandMapBack, hn, if_false] at h
      exact (callPrintLocationAreas_returned env _ g w err g' w' h).2
  · exact Or.inl (commandExplore_returned_pokedex env arg g w err g' w' h)
  · exact commandCatch_returned_pokedex env arg g w err g' w' h
  · left
    simp only [commandInspect_outcome, Outcome.returned.injEq] at h
    rw [← h.2.1]
  · left
    simp only [commandPokedex_outcome, Outcome.returned.injEq] at h
    rw [← h.2.1]
  · simp [commandExit] at h

theorem runCommands_cons_returned (env : Env W) (c : cliCommand W) (arg : String)
    (rest : List (cliCommand W × String)) (g : Globals) (w : W)
    (err : Option String) (g' : Globals) (w' : W)
    (h : (runCommands env ((c, arg) :: rest) g w).outcome = Outcome.returned err g' w') :
    ∃ err1 g1 w1, (c.Callback env arg g w).outcome = Outcome.returned err1 g1 w1 ∧
      (runCommands env rest g1 w1).outcome = Outcome.returned err g' w' := by
  unfold runCommands at h
  cases hc : (c.Callback env arg g w).outcome with
  | returned err1 g1 w1 =>
    rw [hc] at h
    exact ⟨err1, g1, w1, rfl, h⟩
  | exited code =>
    rw [hc] at h
    simp at h

theorem runCommands_keys_persist (env : Env W) (cmds : List (cliCommand W × String))
    (hcmds : ∀ c ∈ cmds, c.1 ∈ (GetCommands W).map Prod.snd) (g : Globals) (w : W)
    (err : Option String) (g' : Globals) (w' : W)
    (hrun : (runCommands env cmds g w).outcome = Outcome.returned err g' w')
    (n : String) (hkey : n ∈ PokedexMap.keys g.pokedex) :
    n ∈ PokedexMap.keys g'.pokedex := by
  induction cmds generalizing g w with
  | nil =>
    simp [runCommands] at hrun
    rw [← hrun.2.1]
    exact hkey
  | cons ca rest ih =>
    obtain ⟨c, arg⟩ := ca
    obtain ⟨err1, g1, w1, h1, h2⟩ :=
      runCommands_cons_returned env c arg rest g w err g' w' hrun
    have hc : c ∈ (GetCommands W).map Prod.snd := hcmds (c, arg) (List.mem_cons_self _ _)
    have hrest : ∀ c ∈ rest, c.1 ∈ (GetCommands W).map Prod.snd :=
      fun c hc => hcmds c (List.mem_cons_of_mem _ hc)
    apply ih hrest g1 w1 h2
    rcases callback_returned_pokedex env c hc arg g w err1 g1 w1 h1 with h3 | ⟨p, h3⟩
    · rw [h3]
      exact hkey
    · rw [h3]
      exact PokedexMap.mem_keys_set_of_mem n _ _ _ hkey

theorem runCommands_keyInvariant (env : Env W) (cmds : List (cliCommand W × String))
    (hcmds : ∀ c ∈ cmds, c.1 ∈ (GetCommands W).map Prod.snd) (g : Globals) (w : W)
    (err : Option String) (g' : Globals) (w' : W)
    (hrun : (runCommands env cmds g w).outcome = Outcome.returned err g' w')
    (hinv : keyInvariant g.pokedex) : keyInvariant g'.pokedex := by
  induction cmds generalizing g w with
  | nil =>
    simp [runCommands] at hrun
    rw [← hrun.2.1]
    exact hinv
  | cons ca rest ih =>
    obtain ⟨c, arg⟩ := ca
    obtain ⟨err1, g1, w1, h1, h2⟩ :=
      runCommands_cons_returned env c arg rest g w err g' w' hrun
    have hc : c ∈ (GetCommands W).map Prod.snd := hcmds (c, arg) (List.mem_cons_self _ _)
    have hrest : ∀ c ∈ rest, c.1 ∈ (GetCommands W).map Prod.snd :=
      fun c hc => hcmds c (List.mem_cons_of_mem _ hc)
    apply ih hrest g1 w1 h2
    rcases callback_returned_pokedex env c hc arg g w err1 g1 w1 h1 with h3 | ⟨p, h3⟩
    · rw [h3]
      exact hinv
    · rw [h3]
      exact keyInvariant_set p _ hinv

theorem commandInspect_found (env : Env W) (name : String) (g : Globals) (w : W)
    (hn : name ≠ "") (pokemon : Pokemon)
    (hk : PokedexMap.get name g.pokedex = some pokemon) :
    (commandInspect env name g w).trace = (inspectOutput pokemon).map Event.print := by
  simp [commandInspect, hn, hk]

theorem commandInspect_not_found (env : Env W) (name : String) (g : Globals) (w : W)
    (hn : name ≠ "") (hk : PokedexMap.get name g.pokedex = none) :
    (commandInspect env name g w).trace =
      [Event.print (name ++ " was not caught yet!\n")] := by
  simp [commandInspect, hn, hk]

theorem inspectOutput_ne_singleton (pokemon : Pokemon) (e : Event) :
    (inspectOutput pokemon).map Event.print ≠ [e] := by
  intro h
  have h1 := congrArg List.length h
  simp [inspectOutput_length] at h1
  omega

theorem pokedex_line_ne_empty_message (x : String) :
    "  - " ++ x ++ "\n" ≠ "You haven't caught any Pokemon yet!\n" := by
  intro h
  have h1 := congrArg String.data h
  simp only [String.data_append] at h1
  have h2 := congrArg (fun l => l.get? 0) h1
  simp at h2

theorem catchCommand_mem : catchCommand ∈ (GetCommands Unit).map Prod.snd := by
  simp [GetCommands, catchCommand]

theorem mapCommand_mem : mapCommand ∈ (GetCommands Unit).map Prod.snd := by
  simp [GetCommands, mapCommand]

/-- C6, as stated, fails for the empty name: catching pokemon 0, whose payload
is the JSON object without members, stores the decoded record under its Name,
the empty string; the empty string is then a key of the pokedex, yet
commandInspect of the empty string stops at its missing-argument guard and
does not take the found branch. -/
theorem inspect_empty_key_skips_found_branch :
    (commandCatch (scriptedEnv true) "0" initialGlobals ()).outcome =
      Outcome.returned none unnamedCaught () ∧
    "" ∈ PokedexMap.keys unnamedCaught.pokedex ∧
    PokedexMap.get "" unnamedCaught.pokedex = some unnamedRecord ∧
    (commandInspect (scriptedEnv true) "" unnamedCaught ()).trace =
      [Event.print "Please provide the name of the Pokemon to inspect.\n"] ∧
    (commandInspect (scriptedEnv true) "" unnamedCaught ()).trace ≠
      (inspectOutput unnamedRecord).map Event.print := by
  refine ⟨rfl, by decide, rfl, rfl, ?_⟩
  intro h
  exact inspectOutput_ne_singleton unnamedRecord _ h.symm

/-- C6, amended: along every sequence of commands of GetCommands that runs to
completion, a name that is a key of the pokedex is still a key afterwards, and
commandInspect of that name then never takes the not-caught branch; if the
name is not the empty string, commandInspect takes the found branch and prints
the fields of the stored record. -/
theorem caught_records_persist (env : Env W) (cmds : List (cliCommand W × String))
    (hcmds : ∀ c ∈ cmds, c.1 ∈ (GetCommands W).map Prod.snd) (g : Globals) (w : W)
    (n : String) (hkey : n ∈ PokedexMap.keys g.pokedex)
    (err : Option String) (g' : Globals) (w' : W)
    (hrun : (runCommands env cmds g w).outcome = Outcome.returned err g' w') :
    n ∈ PokedexMap.keys g'.pokedex ∧
    (commandInspect env n g' w').trace ≠
      [Event.print (n ++ " was not caught yet!\n")] ∧
    (n ≠ "" → ∃ pokemon, PokedexMap.get n g'.pokedex = some pokemon ∧
      (commandInspect env n g' w').trace = (inspectOutput pokemon).map Event.print) := by
  have hk' := runCommands_keys_persist env cmds hcmds g w err g' w' hrun n hkey
  obtain ⟨pokemon, hp⟩ := PokedexMap.get_isSome_of_mem_keys n g'.pokedex hk'
  refine ⟨hk', ?_, ?_⟩
  · by_cases hn : n = ""
    · subst hn
      simp only [commandInspect, if_true]
      decide
    · rw [commandInspect_found env n g' w' hn pokemon hp]
      exact inspectOutput_ne_singleton pokemon _
  · intro hn
    exact ⟨pokemon, hp, commandInspect_found env n g' w' hn pokemon hp⟩

theorem caught_records_persist_witness :
    "pikachu" ∈ PokedexMap.keys pikachuCaught.pokedex ∧
    (commandInspect (scriptedEnv true) "pikachu" pikachuCaught ()).trace ≠
      [Event.print ("pikachu" ++ " was not caught yet!\n")] ∧
    ("pikachu" ≠ "" → ∃ pokemon,
      PokedexMap.get "pikachu" pikachuCaught.pokedex = some pokemon ∧
      (commandInspect (scriptedEnv true) "pikachu" pikachuCaught ()).trace =
        (inspectOutput pokemon).map Event.print) :=
  caught_records_persist (scriptedEnv true) [(catchCommand, "25"), (mapCommand, "")]
    (by
      intro c hc
      simp only [List.mem_cons, List.mem_singleton, List.not_mem_nil, or_false] at hc
      rcases hc with rfl | rfl
      · exact catchCommand_mem
      · exact mapCommand_mem)
    pikachuCaught () "pikachu" (by decide) none pikachuCaught () rfl

/-- C7: for a non-empty name commandInspect prints the Name, Height, Weight,
Stats and Types of the record stored under that name when the name is a key of
the pokedex, and only the not-caught line otherwise, so it prints a record's
fields if and only if the name is a key; for every name, the empty one
included, its trace holds nothing but its own prints (no fetch, no listing
call, no catch attempt), the globals and the hidden state are unchanged, and
it returns nil. -/
theorem inspect_only_if_caught (env : Env W) (name : String) (g : Globals) (w : W) :
    (name ≠ "" →
      (∀ pokemon, PokedexMap.get name g.pokedex = some pokemon →
        printed (commandInspect env name g w).trace =
          [ "Name: " ++ pokemon.Name ++ "\n",
            "Height: " ++ toString pokemon.Height ++ "\n",
            "Weight: " ++ toString pokemon.Weight ++ "\n",
            "Stats:\n" ]
            ++ pokemon.Stats.map
                (fun s => "  - " ++ toString s.BaseStat ++ ": " ++ s.Stat.Name ++ "\n")
            ++ [ "Types:\n" ]
            ++ pokemon.Types.map (fun t => "  - " ++ t.Type_.Name ++ "\n")) ∧
      (PokedexMap.get name g.pokedex = none →
        printed (commandInspect env name g w).trace =
          [name ++ " was not caught yet!\n"]) ∧
      ((∃ pokemon, printed (commandInspect env name g w).trace = inspectOutput pokemon) ↔
        name ∈ PokedexMap.keys g.pokedex)) ∧
    (commandInspect env name g w).trace =
      (printed (commandInspect env name g w).trace).map Event.print ∧
    fetchCalls (commandInspect env name g w).trace = [] ∧
    (commandInspect env name g w).outcome = Outcome.returned none g w := by
  refine ⟨?_, ?_, ?_, commandInspect_outcome env name g w⟩
  · intro hn
    refine ⟨?_, ?_, ?_⟩
    · intro pokemon hk
      rw [commandInspect_found env name g w hn pokemon hk, printed_map_print]
      rfl
    · intro hk
      rw [commandInspect_not_found env name g w hn hk]
      rfl
    · constructor
      · rintro ⟨pokemon, hp⟩
        cases hk : PokedexMap.get name g.pokedex with
        | some stored => exact PokedexMap.mem_keys_of_get name stored _ hk
        | none =>
          exfalso
          rw [commandInspect_not_found env name g w hn hk] at hp
          have hl := congrArg List.length hp
          simp [printed, inspectOutput_length] at hl
          omega
      · intro hmem
        obtain ⟨pokemon, hk⟩ := PokedexMap.get_isSome_of_mem_keys name _ hmem
        refine ⟨pokemon, ?_⟩
        rw [commandInspect_found env name g w hn pokemon hk, printed_map_print]
  · by_cases hn : name = ""
    · simp [commandInspect, hn, printed]
    · cases hk : PokedexMap.get name g.pokedex with
      | none =>
        rw [commandInspect_not_found env name g w hn hk]
        rfl
      | some pokemon =>
        rw [commandInspect_found env name g w hn pokemon hk, printed_map_print]
  · by_cases hn : name = ""
    · simp [commandInspect, hn, fetchCalls]
    · cases hk : PokedexMap.get name g.pokedex with
      | none =>
        rw [commandInspect_not_found env name g w hn hk]
        rfl
      | some pokemon =>
        rw [commandInspect_found env name g w hn pokemon hk, fetchCalls_prints]

theorem inspect_only_if_caught_witness :
    printed (commandInspect (scriptedEnv true) "pikachu" pikachuCaught ()).trace =
        [ "Name: " ++ pikachu.Name ++ "\n",
          "Height: " ++ toString pikachu.Height ++ "\n",
          "Weight: " ++ toString pikachu.Weight ++ "\n",
          "Stats:\n" ]
          ++ pikachu.Stats.map
              (fun s => "  - " ++ toString s.BaseStat ++ ": " ++ s.Stat.Name ++ "\n")
          ++ [ "Types:\n" ]
          ++ pikachu.Types.map (fun t => "  - " ++ t.Type_.Name ++ "\n") ∧
    printed (commandInspect (scriptedEnv true) "ditto" pikachuCaught ()).trace =
      ["ditto" ++ " was not caught yet!\n"] :=
  ⟨((inspect_only_if_caught (scriptedEnv true) "pikachu" pikachuCaught ()).1
      (by decide)).1 pikachu rfl,
   ((inspect_only_if_caught (scriptedEnv true) "ditto" pikachuCaught ()).1
      (by decide)).2.1 rfl⟩

/-- C9, evaluated where it fails: pikachu is served under the name 25. The
first commandCatch of 25 ends in a capture and stores the record under its own
Name, pikachu. The second commandCatch of 25 finds no key 25, so it does not
take the already-caught branch: it calls FetchData and catchAttempt again and
reports a second capture. -/
theorem catch_same_argument_twice :
    commandCatch (scriptedEnv true) "25" initialGlobals () =
      { trace :=
          [Event.callFetchData (catchUrl "25"),
           Event.print "Throwing a Pokeball at pikachu...\n",
           Event.callCatchAttempt pikachu,
           Event.print "pikachu was caught!\n",
           Event.print "You may now inspect it with the 'inspect' command.\n"]
        outcome := Outcome.returned none pikachuCaught () } ∧
    commandCatch (scriptedEnv true) "25" pikachuCaught () =
      { trace :=
          [Event.callFetchData (catchUrl "25"),
           Event.print "Throwing a Pokeball at pikachu...\n",
           Event.callCatchAttempt pikachu,
           Event.print "pikachu was caught!\n",
           Event.print "You may now inspect it with the 'inspect' command.\n"]
        outcome := Outcome.returned none pikachuCaught () } ∧
    printed (commandCatch (scriptedEnv true) "25" pikachuCaught ()).trace ≠
      ["25 is already on the Pokedex!\n"] ∧
    fetchCalls (commandCatch (scriptedEnv true) "25" pikachuCaught ()).trace =
      [catchUrl "25"] ∧
    catchCalls (commandCatch (scriptedEnv true) "25" pikachuCaught ()).trace =
      [pikachu] := by
  refine ⟨rfl, rfl, by decide, rfl, rfl⟩

/-- C10: the pokedex of the initial globals, and the pokedex after every
sequence of commands of GetCommands run from them, holds each record under the
key equal to the record's Name, each key once; commandPokedex then prints one
line per entry, the lines being those of the keys, and prints the
nothing-caught message exactly when the pokedex is empty. -/
theorem pokedex_keyed_by_record_name (env : Env W)
    (cmds : List (cliCommand W × String))
    (hcmds : ∀ c ∈ cmds, c.1 ∈ (GetCommands W).map Prod.snd) (w : W)
    (err : Option String) (g' : Globals) (w' : W)
    (hrun : (runCommands env cmds initialGlobals w).outcome =
      Outcome.returned err g' w') (arg : String) :
    (∀ k pokemon, PokedexMap.get k g'.pokedex = some pokemon → pokemon.Name = k) ∧
    (PokedexMap.keys g'.pokedex).Nodup ∧
    (g'.pokedex ≠ [] →
      printed (commandPokedex env arg g' w').trace =
          (PokedexMap.keys g'.pokedex).map (fun k => "  - " ++ k ++ "\n") ∧
        (printed (commandPokedex env arg g' w').trace).length = g'.pokedex.length) ∧
    (printed (commandPokedex env arg g' w').trace =
        ["You haven't caught any Pokemon yet!\n"] ↔ g'.pokedex = []) := by
  have hinv : keyInvariant g'.pokedex :=
    runCommands_keyInvariant env cmds hcmds initialGlobals w err g' w' hrun
      ⟨by simp [initialGlobals], by simp [initialGlobals, PokedexMap.keys]⟩
  refine ⟨?_, hinv.2, ?_, ?_⟩
  · intro k pokemon hk
    exact hinv.1 (k, pokemon) (PokedexMap.mem_of_get k pokemon _ hk)
  · intro hne
    have hlen : ¬ g'.pokedex.length < 1 := by
      cases hm : g'.pokedex with
      | nil => exact absurd hm hne
      | cons e rest => simp
    have hp : printed (commandPokedex env arg g' w').trace =
        (PokedexMap.keys g'.pokedex).map
          (fun i => "  - " ++ (PokedexMap.index g'.pokedex i).Name ++ "\n") := by
      simp only [commandPokedex, hlen, if_false]
      exact printed_map_print_fun
        (fun i => "  - " ++ (PokedexMap.index g'.pokedex i).Name ++ "\n") _
    refine ⟨?_, ?_⟩
    · rw [hp]
      apply List.map_congr_left
      intro k hk
      obtain ⟨v, hv⟩ := PokedexMap.get_isSome_of_mem_keys k _ hk
      have hname : v.Name = k := hinv.1 (k, v) (PokedexMap.mem_of_get k v _ hv)
      simp [PokedexMap.index, hv, hname]
    · rw [hp, List.length_map, PokedexMap.keys, List.length_map]
  · constructor
    · intro h
      cases hm : g'.pokedex with
      | nil => rfl
      | cons e rest =>
        exfalso
        have hlt : ¬ rest.length + 1 < 1 := by omega
        simp only [commandPokedex, hm, List.length_cons, hlt, if_false, PokedexMap.keys,
          List.map_cons, printed, List.cons.injEq] at h
        exact pokedex_line_ne_empty_message _ h.1
    · intro h
      simp [commandPokedex, h, printed]

theorem pokedex_keyed_by_record_name_witness :
    (∀ k pokemon, PokedexMap.get k pikachuCaught.pokedex = some pokemon →
      pokemon.Name = k) ∧
    (PokedexMap.keys pikachuCaught.pokedex).Nodup ∧
    (pikachuCaught.pokedex ≠ [] →
      printed (commandPokedex (scriptedEnv true) "" pikachuCaught ()).trace =
          (PokedexMap.keys pikachuCaught.pokedex).map (fun k => "  - " ++ k ++ "\n") ∧
        (printed (commandPokedex (scriptedEnv true) "" pikachuCaught ()).trace).length
          = pikachuCaught.pokedex.length) ∧
    (printed (commandPokedex (scriptedEnv true) "" pikachuCaught ()).trace =
        ["You haven't caught any Pokemon yet!\n"] ↔ pikachuCaught.pokedex = []) :=
  pokedex_keyed_by_record_name (scriptedEnv true)
    [(catchCommand, "25"), (mapCommand, "")]
    (by
      intro c hc
      simp only [List.mem_cons, List.mem_singleton, List.not_mem_nil, or_false] at hc
      rcases hc with rfl | rfl
      · exact catchCommand_mem
      · exact mapCommand_mem)
    () none pikachuCaught () rfl ""

end Pokedexcli
